import Mathlib

/-!
Shallow embedding of `multi_demarche_manager.py` (multi-démarche configuration
manager): placeholder resolution, configuration loading, job registry,
per-job environment staging over a shared execution context, and the
sequential orchestrators.  Machine-level concerns that no claim observes
(wall-clock durations, log text, module reloads of external collaborators,
the `.env` reload) are abstracted: durations are opaque naturals supplied by
an oracle, warnings are returned as data instead of printed, and the external
sync collaborator together with the connectivity probe are oracles passed in
as functions.  A `none` result of a staging or orchestration function models
an uncaught Python exception (`KeyError` on a missing `grist` sub-key).
-/

/-! ## Basic string helpers (explicit list recursions so everything computes) -/

/-- `chStarts p l`: the char list `l` starts with `p` (Python `str.startswith`). -/
def chStarts : List Char → List Char → Bool
  | [], _ => true
  | _ :: _, [] => false
  | p :: ps, c :: cs => p = c && chStarts ps cs

/-- Python `s.startswith(pre)`. -/
def strStarts (s pre : String) : Bool := chStarts pre.data s.data

/-- `containsSub needle hay`: `needle` occurs as a contiguous run inside `hay`
(Python `needle in hay` for strings). -/
def containsSub (needle : List Char) : List Char → Bool
  | [] => needle.isEmpty
  | c :: rest => chStarts needle (c :: rest) || containsSub needle rest

/-- Python `",".join(items)`. -/
def joinComma : List String → String
  | [] => ""
  | [s] => s
  | s :: rest => s ++ "," ++ joinComma rest

/-- Python `str(bool).lower()`: `"true"` / `"false"`. -/
def pyBoolStr (b : Bool) : String := if b then "true" else "false"

/-- The unresolved-placeholder marker `${` checked by the source
(`api_token.startswith('${')` and friends). -/
def placeholderMarker : String := "$\x7b"

/-! ## Placeholder Resolver (`_resolve_env_vars`)

The source substitutes every occurrence of the regex `\$\{([^}]+)\}` by
`os.getenv(name, "${name}")`, scanning left to right without rescanning
replacements.  `splitAtBrace l` splits `l` at its first `}`;
`spanName` additionally demands a non-empty name, exactly matching `[^}]+`
followed by `}`. -/

def splitAtBrace : List Char → Option (List Char × List Char)
  | [] => none
  | c :: rest =>
    if c = '\x7d' then some ([], rest)
    else
      match splitAtBrace rest with
      | some (n, a) => some (c :: n, a)
      | none => none

def spanName (l : List Char) : Option (List Char × List Char) :=
  match splitAtBrace l with
  | some (n, a) => if n = [] then none else some (n, a)
  | none => none

/-- `replace_var`: the replacement for a matched name — the looked-up value, or
the original `${name}` text verbatim when the variable is absent. -/
def replaceVar (lookup : String → Option String) (name : List Char) : List Char :=
  match lookup (String.mk name) with
  | some v => v.data
  | none => '$' :: '\x7b' :: (name ++ ['\x7d'])

/-- The scan of `re.sub(r'\$\{([^}]+)\}', replace_var, text)` over the char
list: at `${`, a complete `[^}]+}` match is replaced and scanning resumes after
it; with no complete match the engine advances one position (the emitted `$`),
and the following `{` can never begin a match. -/
def resolveAux (lookup : String → Option String) : List Char → List Char
  | [] => []
  | '$' :: '\x7b' :: rest =>
    match h : spanName rest with
    | some (name, after) => replaceVar lookup name ++ resolveAux lookup after
    | none => '$' :: resolveAux lookup ('\x7b' :: rest)
  | c :: rest => c :: resolveAux lookup rest
termination_by l => l.length
decreasing_by
  all_goals simp_wf
  all_goals first
  | omega
  | (have key : ∀ l2 : List Char, ∀ n2 a2 : List Char,
        splitAtBrace l2 = some (n2, a2) → a2.length < l2.length := by
      intro l2
      induction l2 with
      | nil => intro n2 a2 h2; simp [splitAtBrace] at h2
      | cons c2 cs ih =>
        intro n2 a2 h2
        rw [splitAtBrace] at h2
        by_cases hc : c2 = '\x7d'
        · rw [if_pos hc] at h2
          obtain ⟨-, rfl⟩ := Option.some.inj h2 |> Prod.mk.inj
          simp
        · rw [if_neg hc] at h2
          cases hs : splitAtBrace cs with
          | none => rw [hs] at h2; exact absurd h2 (by simp)
          | some p =>
            rw [hs] at h2
            obtain ⟨h3, h4⟩ := Option.some.inj h2 |> Prod.mk.inj
            subst h4
            have h5 := ih p.1 p.2 hs
            simpa using Nat.lt_succ_of_lt h5
     have key2 : ∀ l2 : List Char, ∀ n2 a2 : List Char,
        spanName l2 = some (n2, a2) → a2.length < l2.length := by
       intro l2 n2 a2 hsp
       unfold spanName at hsp
       cases hs : splitAtBrace l2 with
       | none => rw [hs] at hsp; exact absurd hsp (by simp)
       | some p =>
         obtain ⟨n1, a1⟩ := p
         rw [hs] at hsp
         dsimp only at hsp
         by_cases hn : n1 = []
         · rw [if_pos hn] at hsp; exact absurd hsp (by simp)
         · rw [if_neg hn] at hsp
           have h4 := (Option.some.inj hsp |> Prod.mk.inj).2
           exact h4 ▸ key l2 n1 a1 hs
     have h6 := key2 rest name after h
     omega)

/-- `_resolve_env_vars` on a string. -/
def resolveEnvVars (lookup : String → Option String) (s : String) : String :=
  String.mk (resolveAux lookup s.data)

/-- Whether the scan of `resolveAux` finds at least one complete `${NAME}`
match (same traversal as `resolveAux`). -/
def hasPlaceholderMatch : List Char → Bool
  | [] => false
  | '$' :: '\x7b' :: rest =>
    match spanName rest with
    | some _ => true
    | none => hasPlaceholderMatch ('\x7b' :: rest)
  | _ :: rest => hasPlaceholderMatch rest
termination_by l => l.length
decreasing_by
  all_goals simp_wf
  all_goals omega

/-- Declarative reading of "contains an occurrence of the pattern `${NAME}`":
some split exhibits `${`, a non-empty run of non-`}` characters, and `}`. -/
def containsPlaceholderPattern (l : List Char) : Prop :=
  ∃ pre name post : List Char,
    l = pre ++ '$' :: '\x7b' :: (name ++ '\x7d' :: post) ∧
    name ≠ [] ∧ '\x7d' ∉ name

/-- `"${" ++ N ++ "}"`, the literal placeholder text for a name. -/
def placeholderWrap (N : String) : String := "$\x7b" ++ N ++ "\x7d"

/-! ## JSON document tree and the recursive resolver (`_resolve_dict_env_vars`) -/

inductive JValue where
  | str (s : String)
  | num (n : Int)
  | boolV (b : Bool)
  | nullV
  | arr (items : List JValue)
  | obj (fields : List (String × JValue))

mutual
/-- `_resolve_dict_env_vars`: resolve mappings value-wise (keys untouched),
lists element-wise, strings through `_resolve_env_vars`, all other scalars
returned unchanged.  Total by construction — no error path. -/
def resolveDictEnvVars (lookup : String → Option String) : JValue → JValue
  | .obj fields => .obj (resolveFields lookup fields)
  | .arr items => .arr (resolveItems lookup items)
  | .str s => .str (resolveEnvVars lookup s)
  | .num n => .num n
  | .boolV b => .boolV b
  | .nullV => .nullV

def resolveItems (lookup : String → Option String) : List JValue → List JValue
  | [] => []
  | v :: vs => resolveDictEnvVars lookup v :: resolveItems lookup vs

def resolveFields (lookup : String → Option String) :
    List (String × JValue) → List (String × JValue)
  | [] => []
  | (k, v) :: kvs => (k, resolveDictEnvVars lookup v) :: resolveFields lookup kvs
end

/-! ## Configuration Loader (`_load_config`) -/

/-- Python `element == key` where `key` is a `str`: true only for an equal
string value. -/
def jvalEqStr : JValue → String → Bool
  | .str s, k => s == k
  | _, _ => false

/-- Python `key in v` for the parsed document: key membership for a `dict`,
element membership for a `list`, substring membership for a `str`, and a
`TypeError` (modelled as `none`) for any other scalar. -/
def pyContains (v : JValue) (key : String) : Option Bool :=
  match v with
  | .obj fields => some (fields.any (fun kv => kv.fst == key))
  | .arr items => some (items.any (fun it => jvalEqStr it key))
  | .str s => some (containsSub key.data s.data)
  | .num _ => none
  | .boolV _ => none
  | .nullV => none

/-- "Document has a required top-level section" in the sense of the
configuration schema: the document is a mapping and the key is among its
top-level keys. -/
def hasTopLevelSection (v : JValue) (key : String) : Bool :=
  match v with
  | .obj fields => fields.any (fun kv => kv.fst == key)
  | _ => false

inductive LoadOutcome where
  | notFoundError
  | formatError (diag : String)
  | schemaError (sectionName : String)
  | typeError
  | ok (config : JValue)

/-- The post-parse part of `_load_config`: the `required_sections` loop,
checking `'grist'` then `'demarches'` with Python `in` on the resolved
document, returning the resolved document when both pass. -/
def sectionCheck (v : JValue) : LoadOutcome :=
  match pyContains v "grist" with
  | none => .typeError
  | some false => .schemaError "grist"
  | some true =>
    match pyContains v "demarches" with
    | none => .typeError
    | some false => .schemaError "demarches"
    | some true => .ok v

/-- `_load_config`.  The file-system interaction is abstracted into
`file : Option (Except String JValue)`: `none` — the path does not exist
(`FileNotFoundError` re-raised as `NotFoundError`); `some (.error diag)` —
the document is not valid JSON (`json.JSONDecodeError` wrapped as
`FormatError`); `some (.ok doc)` — the parsed document.  After parsing, the
placeholder resolver is applied to the whole tree, then the required-section
loop runs; the missing-section `ValueError` (`SchemaError`) is not caught by
the `except json.JSONDecodeError` clause and propagates. -/
def loadConfig (lookup : String → Option String)
    (file : Option (Except String JValue)) : LoadOutcome :=
  match file with
  | none => .notFoundError
  | some (.error diag) => .formatError diag
  | some (.ok doc) => sectionCheck (resolveDictEnvVars lookup doc)

/-! ## Job Registry data model and `_load_demarches` -/

/-- `sync_config` sub-mapping of a job entry (use-site defaults 50 / 3 / true). -/
structure SyncConfigData where
  batch_size : Option Int
  max_workers : Option Int
  parallel : Option Bool
deriving DecidableEq

/-- `filters` sub-mapping of a job entry. -/
structure FiltersData where
  date_depot_debut : Option String
  date_depot_fin : Option String
  statuts_dossiers : Option (List String)
  groupes_instructeurs : Option (List Int)
deriving DecidableEq

/-- One raw job entry of `config['demarches']` (`number` and `name` are
required keys, the rest are read with `.get` defaults). -/
structure DemarcheData where
  number : Int
  name : String
  api_token : Option String
  api_url : Option String
  enabled : Option Bool
  sync_config : Option SyncConfigData
  filters : Option FiltersData
deriving DecidableEq

/-- `DemarcheConfig` dataclass. -/
structure DemarcheConfig where
  number : Int
  name : String
  api_token : String
  api_url : String
  enabled : Bool
  sync_config : SyncConfigData
  filters : FiltersData
deriving DecidableEq

def emptySyncConfig : SyncConfigData := ⟨none, none, none⟩

def emptyFilters : FiltersData := ⟨none, none, none, none⟩

/-- Default production endpoint used when `api_url` is absent. -/
def defaultApiUrl : String := "https://www.demarches-simplifiees.fr/api/v2/graphql"

/-- `_load_demarches`: walk the entries in document order; an entry whose
token (default `''`) starts with `${` produces a warning — returned here as
the pair (job number, unresolved token text) — and is skipped; every other
entry produces one `DemarcheConfig` with the documented defaults. -/
def loadDemarches : List DemarcheData → List DemarcheConfig × List (Int × String)
  | [] => ([], [])
  | e :: rest =>
    let apiToken := e.api_token.getD ""
    let (cs, ws) := loadDemarches rest
    if strStarts apiToken placeholderMarker then
      (cs, (e.number, apiToken) :: ws)
    else
      ({ number := e.number
         name := e.name
         api_token := apiToken
         api_url := e.api_url.getD defaultApiUrl
         enabled := e.enabled.getD true
         sync_config := e.sync_config.getD emptySyncConfig
         filters := e.filters.getD emptyFilters } :: cs, ws)

/-- What `_load_demarches` produces for a single entry: `none` when the
token (default `''`) starts with the `${` marker, otherwise the constructed
`DemarcheConfig`. -/
def keepEntry (e : DemarcheData) : Option DemarcheConfig :=
  if strStarts (e.api_token.getD "") placeholderMarker then none
  else some
    { number := e.number
      name := e.name
      api_token := e.api_token.getD ""
      api_url := e.api_url.getD defaultApiUrl
      enabled := e.enabled.getD true
      sync_config := e.sync_config.getD emptySyncConfig
      filters := e.filters.getD emptyFilters }

/-- The warning `_load_demarches` emits for a single entry: the job number
and the unresolved token text, exactly when the token starts with `${`. -/
def warnEntry (e : DemarcheData) : Option (Int × String) :=
  if strStarts (e.api_token.getD "") placeholderMarker then
    some (e.number, e.api_token.getD "")
  else none

/-- `get_enabled_demarches`. -/
def getEnabledDemarches (ds : List DemarcheConfig) : List DemarcheConfig :=
  ds.filter (fun d => d.enabled)

/-- `get_demarche_config`: first entry with the given number, else `None`. -/
def getDemarcheConfig : List DemarcheConfig → Int → Option DemarcheConfig
  | [], _ => none
  | d :: rest, n => if d.number = n then some d else getDemarcheConfig rest n

/-! ## `validate_configuration` -/

/-- The `grist` block as loaded: the three expected keys, each possibly absent. -/
structure GristData where
  base_url : Option String
  api_key : Option String
  doc_id : Option String
deriving DecidableEq

/-- `not grist_config.get(key) or grist_config[key].startswith('${')`:
absent, empty, or placeholder-shaped. -/
def gristFieldBad : Option String → Bool
  | none => true
  | some s => s == "" || strStarts s placeholderMarker

/-- The outcome of `validate_configuration`: the returned boolean plus the
violations it reports (grist keys, then job numbers), which the source prints. -/
structure ValidationReport where
  valid : Bool
  gristViolations : List String
  demarcheViolations : List Int
deriving DecidableEq

/-- `validate_configuration`: check `base_url`, `api_key`, `doc_id` of the
grist block, then every registry job's token (`not token or
token.startswith('${')`); `valid` is true iff no check failed. -/
def validateConfiguration (g : GristData) (ds : List DemarcheConfig) :
    ValidationReport :=
  let gv := (if gristFieldBad g.base_url then ["base_url"] else []) ++
            (if gristFieldBad g.api_key then ["api_key"] else []) ++
            (if gristFieldBad g.doc_id then ["doc_id"] else [])
  let dv := (ds.filter
      (fun d => d.api_token == "" || strStarts d.api_token placeholderMarker)).map
      (fun d => d.number)
  { valid := gv.isEmpty && dv.isEmpty, gristViolations := gv
    demarcheViolations := dv }

/-! ## Environment Stager (`set_environment_for_demarche`)

The shared execution context is the set of named environment slots the stager
writes and the sync collaborator reads.  The connectivity probe's outcome is
an oracle argument; the module-reload side effects touch only external
collaborators and are outside this context model.  The
`load_dotenv(override=True)` call that the source places between the three
credential writes and the grist/filter/tuning writes IS modeled: it re-reads
the external `.env` file and overwrites every slot that file defines
(`DotenvFile` below records, for each named slot, the value the `.env` file
assigns to it, if any; entries of the `.env` outside the named slots do not
touch the modeled context).  A `none` result models the uncaught `KeyError`
raised when the `grist` block lacks one of its three keys (accessed with
`[]`, after the error-path returns). -/

structure ExecutionContext where
  demarches_api_token : String
  demarches_api_url : String
  demarche_number : String
  grist_base_url : String
  grist_api_key : String
  grist_doc_id : String
  date_depot_debut : String
  date_depot_fin : String
  statuts_dossiers : String
  groupes_instructeurs : String
  batch_size : String
  max_workers : String
  parallel : String
deriving DecidableEq

/-- The four possible outcomes of the connectivity probe: 200 with the
démarche accessible, 200 without it (optionally with GraphQL errors), a
non-200 status, or a raised exception. -/
inductive ProbeOutcome where
  | okAccess
  | inaccessible (gqlErrors : List String)
  | httpError (status : Nat)
  | exn (message : String)
deriving DecidableEq

/-- The external `.env` file as `load_dotenv(override=True)` sees it,
restricted to the named context slots: for each slot, the value the file
assigns to that environment variable, or `none` when the file does not
define it.  (Entries of the `.env` for other variable names never touch the
modeled context.) -/
structure DotenvFile where
  demarches_api_token : Option String
  demarches_api_url : Option String
  demarche_number : Option String
  grist_base_url : Option String
  grist_api_key : Option String
  grist_doc_id : Option String
  date_depot_debut : Option String
  date_depot_fin : Option String
  statuts_dossiers : Option String
  groupes_instructeurs : Option String
  batch_size : Option String
  max_workers : Option String
  parallel : Option String
deriving DecidableEq

/-- `load_dotenv(override=True)` over the modeled slots: every slot the
`.env` file defines is overwritten with the file's value; every other slot
keeps its current value. -/
def applyDotenvOverride (denv : DotenvFile) (ctx : ExecutionContext) :
    ExecutionContext :=
  { demarches_api_token := denv.demarches_api_token.getD ctx.demarches_api_token
    demarches_api_url := denv.demarches_api_url.getD ctx.demarches_api_url
    demarche_number := denv.demarche_number.getD ctx.demarche_number
    grist_base_url := denv.grist_base_url.getD ctx.grist_base_url
    grist_api_key := denv.grist_api_key.getD ctx.grist_api_key
    grist_doc_id := denv.grist_doc_id.getD ctx.grist_doc_id
    date_depot_debut := denv.date_depot_debut.getD ctx.date_depot_debut
    date_depot_fin := denv.date_depot_fin.getD ctx.date_depot_fin
    statuts_dossiers := denv.statuts_dossiers.getD ctx.statuts_dossiers
    groupes_instructeurs := denv.groupes_instructeurs.getD ctx.groupes_instructeurs
    batch_size := denv.batch_size.getD ctx.batch_size
    max_workers := denv.max_workers.getD ctx.max_workers
    parallel := denv.parallel.getD ctx.parallel }

/-- The slot writes of the staging success path, one field update per source
assignment, in source order: the three credential writes, then the
`load_dotenv(override=True)` reload (which may clobber any already-written
slot from the external `.env`), then the grist, filter and tuning writes. -/
def stageWrites (dc : DemarcheConfig) (n : Int) (bu ak di : String)
    (denv : DotenvFile) (ctx : ExecutionContext) : ExecutionContext :=
  let c1 := { ctx with demarches_api_token := dc.api_token }
  let c2 := { c1 with demarches_api_url := dc.api_url }
  let c3 := { c2 with demarche_number := toString n }
  let c4 := applyDotenvOverride denv c3
  let c5 := { c4 with grist_base_url := bu }
  let c6 := { c5 with grist_api_key := ak }
  let c7 := { c6 with grist_doc_id := di }
  let c8 := { c7 with date_depot_debut := dc.filters.date_depot_debut.getD "" }
  let c9 := { c8 with date_depot_fin := dc.filters.date_depot_fin.getD "" }
  let c10 := { c9 with statuts_dossiers := joinComma (dc.filters.statuts_dossiers.getD []) }
  let c11 := { c10 with groupes_instructeurs := joinComma ((dc.filters.groupes_instructeurs.getD []).map (fun g => toString g)) }
  let c12 := { c11 with batch_size := toString (dc.sync_config.batch_size.getD 50) }
  let c13 := { c12 with max_workers := toString (dc.sync_config.max_workers.getD 3) }
  { c13 with parallel := pyBoolStr (dc.sync_config.parallel.getD true) }

/-- The fully staged context for one job: the three credential slots carry
the `.env` file's value when that file defines them (the dotenv reload runs
after they are written) and the job's value otherwise; every other slot is a
function of the job's configuration (with the per-field defaults) and the
grist target, because those writes happen after the reload. -/
def stagedContext (dc : DemarcheConfig) (n : Int) (bu ak di : String)
    (denv : DotenvFile) : ExecutionContext :=
  { demarches_api_token := denv.demarches_api_token.getD dc.api_token
    demarches_api_url := denv.demarches_api_url.getD dc.api_url
    demarche_number := denv.demarche_number.getD (toString n)
    grist_base_url := bu
    grist_api_key := ak
    grist_doc_id := di
    date_depot_debut := dc.filters.date_depot_debut.getD ""
    date_depot_fin := dc.filters.date_depot_fin.getD ""
    statuts_dossiers := joinComma (dc.filters.statuts_dossiers.getD [])
    groupes_instructeurs :=
      joinComma ((dc.filters.groupes_instructeurs.getD []).map (fun g => toString g))
    batch_size := toString (dc.sync_config.batch_size.getD 50)
    max_workers := toString (dc.sync_config.max_workers.getD 3)
    parallel := pyBoolStr (dc.sync_config.parallel.getD true) }

/-- `set_environment_for_demarche`.  Step 1: look the number up in the
registry and validate the token; both failure cases return `False` before any
slot is written (and before the dotenv reload).  Then the slot writes with
the interleaved `.env` override, then the probe, all four of whose outcomes
return `True`. -/
def setEnvironmentForDemarche (ds : List DemarcheConfig) (g : GristData)
    (denv : DotenvFile) (n : Int) (probe : ProbeOutcome)
    (ctx : ExecutionContext) : Option (Bool × ExecutionContext) :=
  match getDemarcheConfig ds n with
  | none => some (false, ctx)
  | some dc =>
    if dc.api_token == "" || strStarts dc.api_token placeholderMarker then
      some (false, ctx)
    else
      match g.base_url, g.api_key, g.doc_id with
      | some bu, some ak, some di =>
        let ctx' := stageWrites dc n bu ak di denv ctx
        match probe with
        | .okAccess => some (true, ctx')
        | .inaccessible _ => some (true, ctx')
        | .httpError _ => some (true, ctx')
        | .exn _ => some (true, ctx')
      | _, _, _ => none

/-- Step-1 success as a pure predicate: the number resolves to a job whose
token is non-empty and not placeholder-shaped. -/
def stageOkBool (ds : List DemarcheConfig) (n : Int) : Bool :=
  match getDemarcheConfig ds n with
  | none => false
  | some dc => !(dc.api_token == "" || strStarts dc.api_token placeholderMarker)

/-! ## Orchestrators -/

/-- `SyncResult` dataclass (`duration_seconds` abstracted to an opaque
natural supplied by the duration oracle; the source stores wall-clock
seconds). -/
structure SyncResult where
  demarche_number : Int
  demarche_name : String
  success : Bool
  dossiers_processed : Nat
  errors : List String
  duration_seconds : Nat
deriving DecidableEq

/-- `_sync_single_demarche`: the whole `try` body — Grist client construction
plus the external collaborator call — is the oracle `call`; `.ok b` is the
collaborator's boolean, `.error e` any raised exception's message. -/
def syncSingleDemarche (d : DemarcheConfig) (call : Except String Bool)
    (t : Nat) : SyncResult :=
  match call with
  | .ok success =>
    { demarche_number := d.number, demarche_name := d.name, success := success
      dossiers_processed := 0, errors := [], duration_seconds := t }
  | .error e =>
    { demarche_number := d.number, demarche_name := d.name, success := false
      dossiers_processed := 0
      errors := ["Erreur lors de la synchronisation : " ++ e]
      duration_seconds := t }

/-- The failed result recorded by `sync_all_demarches` when staging returns
`False`. -/
def envFailResult (d : DemarcheConfig) : SyncResult :=
  { demarche_number := d.number, demarche_name := d.name, success := false
    dossiers_processed := 0
    errors := ["Échec de la configuration de l\x27environnement"]
    duration_seconds := 0 }

/-- The failed result recorded by `sync_specific_demarches` for an id with no
matching job. -/
def notFoundResult (n : Int) : SyncResult :=
  { demarche_number := n, demarche_name := "Démarche " ++ toString n
    success := false, dossiers_processed := 0
    errors := ["Démarche non trouvée dans la configuration"]
    duration_seconds := 0 }

/-- The failed result recorded by `sync_specific_demarches` when staging
returns `False` for a found job. -/
def envFailSelResult (n : Int) (dc : DemarcheConfig) : SyncResult :=
  { demarche_number := n, demarche_name := dc.name, success := false
    dossiers_processed := 0
    errors := ["Échec de la configuration de l\x27environnement"]
    duration_seconds := 0 }

/-- The per-job loop body of `sync_all_demarches` over an explicit job list,
threading the shared context; `none` propagates a staging crash (which the
loop does not catch).  The probe, collaborator and duration oracles are keyed
by the job number handed to them by the source. -/
def syncJobs (ds : List DemarcheConfig) (g : GristData) (denv : DotenvFile)
    (probe : Int → ProbeOutcome) (call : Int → Except String Bool)
    (dur : Int → Nat) :
    List DemarcheConfig → ExecutionContext →
    Option (List SyncResult × ExecutionContext)
  | [], ctx => some ([], ctx)
  | d :: rest, ctx =>
    match setEnvironmentForDemarche ds g denv d.number (probe d.number) ctx with
    | none => none
    | some (false, ctx') =>
      match syncJobs ds g denv probe call dur rest ctx' with
      | none => none
      | some (res, ctxF) => some (envFailResult d :: res, ctxF)
    | some (true, ctx') =>
      match syncJobs ds g denv probe call dur rest ctx' with
      | none => none
      | some (res, ctxF) =>
        some (syncSingleDemarche d (call d.number) (dur d.number) :: res, ctxF)

/-- `sync_all_demarches`: every enabled job, in document order. -/
def syncAllDemarches (ds : List DemarcheConfig) (g : GristData)
    (denv : DotenvFile) (probe : Int → ProbeOutcome)
    (call : Int → Except String Bool) (dur : Int → Nat)
    (ctx : ExecutionContext) :
    Option (List SyncResult × ExecutionContext) :=
  syncJobs ds g denv probe call dur (getEnabledDemarches ds) ctx

/-- `sync_specific_demarches` over an explicit id list.  The third component
of the result is the staging trace: the ids for which
`set_environment_for_demarche` was invoked, in order. -/
def syncSpecificDemarches (ds : List DemarcheConfig) (g : GristData)
    (denv : DotenvFile) (probe : Int → ProbeOutcome)
    (call : Int → Except String Bool) (dur : Int → Nat) (force : Bool) :
    List Int → ExecutionContext →
    Option (List SyncResult × ExecutionContext × List Int)
  | [], ctx => some ([], ctx, [])
  | n :: rest, ctx =>
    match getDemarcheConfig ds n with
    | none =>
      match syncSpecificDemarches ds g denv probe call dur force rest ctx with
      | none => none
      | some (res, ctxF, tr) => some (notFoundResult n :: res, ctxF, tr)
    | some dc =>
      if !dc.enabled && !force then
        syncSpecificDemarches ds g denv probe call dur force rest ctx
      else
        match setEnvironmentForDemarche ds g denv n (probe n) ctx with
        | none => none
        | some (false, ctx') =>
          match syncSpecificDemarches ds g denv probe call dur force rest ctx' with
          | none => none
          | some (res, ctxF, tr) =>
            some (envFailSelResult n dc :: res, ctxF, n :: tr)
        | some (true, ctx') =>
          match syncSpecificDemarches ds g denv probe call dur force rest ctx' with
          | none => none
          | some (res, ctxF, tr) =>
            some (syncSingleDemarche dc (call n) (dur n) :: res, ctxF, n :: tr)

/-- The result `sync_all_demarches` records for one enabled job: the staging
failure result when step 1 fails, otherwise the outcome of the collaborator
call.  (When staging would crash instead, the surrounding run returns `none`
and no result list exists.) -/
def expectedJobResult (ds : List DemarcheConfig)
    (call : Int → Except String Bool) (dur : Int → Nat)
    (d : DemarcheConfig) : SyncResult :=
  if stageOkBool ds d.number then syncSingleDemarche d (call d.number) (dur d.number)
  else envFailResult d

/-- The optional result `sync_specific_demarches` records for one requested
id: a not-found failure, nothing for an unforced disabled job, otherwise as
for `sync_all_demarches`. -/
def expectedSelResult (ds : List DemarcheConfig)
    (call : Int → Except String Bool) (dur : Int → Nat) (force : Bool)
    (n : Int) : Option SyncResult :=
  match getDemarcheConfig ds n with
  | none => some (notFoundResult n)
  | some dc =>
    if !dc.enabled && !force then none
    else if stageOkBool ds n then some (syncSingleDemarche dc (call n) (dur n))
    else some (envFailSelResult n dc)

/-- Whether `sync_specific_demarches` invokes staging for a requested id. -/
def selStages (ds : List DemarcheConfig) (force : Bool) (n : Int) : Bool :=
  match getDemarcheConfig ds n with
  | none => false
  | some dc => dc.enabled || force

/-! ## Concrete fixtures used by the closed witness and counterexample
statements -/

def exFilters : FiltersData :=
  { date_depot_debut := some "2024-01-01", date_depot_fin := none
    statuts_dossiers := some ["accepte", "en_instruction"]
    groupes_instructeurs := some [7, 12] }

def exSync : SyncConfigData :=
  { batch_size := some 20, max_workers := none, parallel := some false }

def exJobA : DemarcheConfig :=
  { number := 1, name := "alpha", api_token := "tokenA", api_url := "urlA"
    enabled := true, sync_config := exSync, filters := exFilters }

def exJobB : DemarcheConfig :=
  { number := 2, name := "beta", api_token := "tokenB", api_url := defaultApiUrl
    enabled := true, sync_config := emptySyncConfig, filters := emptyFilters }

def exJobBad : DemarcheConfig :=
  { number := 3, name := "gamma", api_token := "", api_url := defaultApiUrl
    enabled := true, sync_config := emptySyncConfig, filters := emptyFilters }

def exRegistry : List DemarcheConfig := [exJobA, exJobB, exJobBad]

def exGrist : GristData :=
  { base_url := some "https://grist.example", api_key := some "gkey"
    doc_id := some "gdoc" }

/-- A `.env` file that defines none of the named slots: the dotenv reload is
a no-op on the modeled context. -/
def exDotenvNone : DotenvFile :=
  { demarches_api_token := none, demarches_api_url := none
    demarche_number := none, grist_base_url := none, grist_api_key := none
    grist_doc_id := none, date_depot_debut := none, date_depot_fin := none
    statuts_dossiers := none, groupes_instructeurs := none, batch_size := none
    max_workers := none, parallel := none }

/-- A `.env` file that defines the legacy `DEMARCHES_API_TOKEN` variable:
the dotenv reload overwrites the freshly staged token slot with it. -/
def exDotenvTok : DotenvFile :=
  { demarches_api_token := some "dotenv-token", demarches_api_url := none
    demarche_number := none, grist_base_url := none, grist_api_key := none
    grist_doc_id := none, date_depot_debut := none, date_depot_fin := none
    statuts_dossiers := none, groupes_instructeurs := none, batch_size := none
    max_workers := none, parallel := none }

def exCtx0 : ExecutionContext :=
  { demarches_api_token := "stale-token", demarches_api_url := "stale-url"
    demarche_number := "0", grist_base_url := "stale-g", grist_api_key := "stale-k"
    grist_doc_id := "stale-d", date_depot_debut := "stale", date_depot_fin := "stale"
    statuts_dossiers := "stale", groupes_instructeurs := "stale"
    batch_size := "stale", max_workers := "stale", parallel := "stale" }

/-! ## Resolver lemmas -/

theorem strMkData (s : String) : String.mk s.data = s := rfl

theorem splitAtBrace_append (a : List Char) : ∀ n : List Char, '\x7d' ∉ n →
    splitAtBrace (n ++ '\x7d' :: a) = some (n, a) := by
  intro n
  induction n with
  | nil => intro _; simp [splitAtBrace]
  | cons c cs ih =>
    intro hnb
    have hc : c ≠ '\x7d' := by
      intro h; exact hnb (by simp [h])
    have hcs : '\x7d' ∉ cs := by
      intro h; exact hnb (by simp [h])
    rw [List.cons_append, splitAtBrace, if_neg hc, ih hcs]

theorem splitAtBrace_sound : ∀ l n a : List Char, splitAtBrace l = some (n, a) →
    l = n ++ '\x7d' :: a ∧ '\x7d' ∉ n := by
  intro l
  induction l with
  | nil => intro n a h; simp [splitAtBrace] at h
  | cons c cs ih =>
    intro n a h
    rw [splitAtBrace] at h
    by_cases hc : c = '\x7d'
    · rw [if_pos hc] at h
      obtain ⟨h1, h2⟩ := Option.some.inj h |> Prod.mk.inj
      constructor
      · rw [← h1, ← h2, hc]; rfl
      · rw [← h1]; exact List.not_mem_nil '\x7d'
    · rw [if_neg hc] at h
      cases hs : splitAtBrace cs with
      | none => rw [hs] at h; exact absurd h (by simp)
      | some p =>
        obtain ⟨n1, a1⟩ := p
        rw [hs] at h
        obtain ⟨h1, h2⟩ := Option.some.inj h |> Prod.mk.inj
        obtain ⟨hl, hn⟩ := ih n1 a1 hs
        subst h1; subst h2
        constructor
        · simp [hl]
        · intro hmem
          rcases List.mem_cons.mp hmem with hcc | hm
          · exact hc hcc.symm
          · exact hn hm

theorem spanName_append (a : List Char) (n : List Char) (hne : n ≠ [])
    (hnb : '\x7d' ∉ n) : spanName (n ++ '\x7d' :: a) = some (n, a) := by
  unfold spanName
  rw [splitAtBrace_append a n hnb]
  dsimp only
  rw [if_neg hne]

theorem spanName_sound {l n a : List Char} (h : spanName l = some (n, a)) :
    l = n ++ '\x7d' :: a ∧ n ≠ [] ∧ '\x7d' ∉ n := by
  unfold spanName at h
  cases hs : splitAtBrace l with
  | none => rw [hs] at h; exact absurd h (by simp)
  | some p =>
    obtain ⟨n1, a1⟩ := p
    rw [hs] at h
    dsimp only at h
    by_cases hn : n1 = []
    · rw [if_pos hn] at h; exact absurd h (by simp)
    · rw [if_neg hn] at h
      obtain ⟨h1, h2⟩ := Option.some.inj h |> Prod.mk.inj
      obtain ⟨hl, hb⟩ := splitAtBrace_sound l n1 a1 hs
      subst h1; subst h2
      exact ⟨hl, hn, hb⟩

theorem resolveAux_no_match (lookup : String → Option String) :
    ∀ l : List Char, hasPlaceholderMatch l = false → resolveAux lookup l = l := by
  intro l
  induction l using resolveAux.induct lookup with
  | case1 => intro _; rw [resolveAux.eq_1]
  | case2 rest name after hspan =>
    intro hm
    rw [hasPlaceholderMatch.eq_2, hspan] at hm
    exact absurd hm (by simp)
  | case3 rest hspan ih =>
    intro hm
    rw [hasPlaceholderMatch.eq_2, hspan] at hm
    rw [resolveAux.eq_2, hspan, ih hm]
  | case4 c rest h1 ih =>
    intro hm
    rw [hasPlaceholderMatch.eq_3 c rest h1] at hm
    rw [resolveAux.eq_3 lookup c rest h1, ih hm]

theorem hasMatch_decomp : ∀ l : List Char, hasPlaceholderMatch l = true →
    containsPlaceholderPattern l := by
  intro l
  induction l using hasPlaceholderMatch.induct with
  | case1 => intro h; exact absurd h (by simp [hasPlaceholderMatch.eq_1])
  | case2 rest val hspan =>
    intro _
    obtain ⟨name, after⟩ := val
    obtain ⟨hl, hne, hnb⟩ := spanName_sound hspan
    exact ⟨[], name, after, by simp [hl], hne, hnb⟩
  | case3 rest hspan ih =>
    intro h
    rw [hasPlaceholderMatch.eq_2, hspan] at h
    obtain ⟨pre, name, post, heq, hne, hnb⟩ := ih h
    exact ⟨'$' :: pre, name, post, by rw [heq]; rfl, hne, hnb⟩
  | case4 c rest h1 ih =>
    intro h
    rw [hasPlaceholderMatch.eq_3 c rest h1] at h
    obtain ⟨pre, name, post, heq, hne, hnb⟩ := ih h
    exact ⟨c :: pre, name, post, by rw [heq]; rfl, hne, hnb⟩

theorem hasMatch_of_decomp : ∀ l pre name post : List Char,
    l = pre ++ '$' :: '\x7b' :: (name ++ '\x7d' :: post) → name ≠ [] →
    '\x7d' ∉ name → hasPlaceholderMatch l = true := by
  intro l
  induction l using hasPlaceholderMatch.induct with
  | case1 =>
    intro pre name post heq _ _
    cases pre <;> simp at heq
  | case2 rest val hspan =>
    intro _ _ _ _ _ _
    rw [hasPlaceholderMatch.eq_2, hspan]
  | case3 rest hspan ih =>
    intro pre name post heq hne hnb
    cases pre with
    | nil =>
      have hrest : rest = name ++ '\x7d' :: post := by simpa using heq
      have hsome : spanName rest = some (name, post) := by
        rw [hrest]; exact spanName_append post name hne hnb
      rw [hspan] at hsome
      exact absurd hsome (by simp)
    | cons p0 pre1 =>
      have h2 : '\x7b' :: rest = pre1 ++ '$' :: '\x7b' :: (name ++ '\x7d' :: post) :=
        (List.cons.inj heq).2
      rw [hasPlaceholderMatch.eq_2, hspan]
      exact ih pre1 name post h2 hne hnb
  | case4 c rest h1 ih =>
    intro pre name post heq hne hnb
    cases pre with
    | nil =>
      have hc := (List.cons.inj heq).1
      have hr := (List.cons.inj heq).2
      exact (h1 (name ++ '\x7d' :: post) hc hr).elim
    | cons p0 pre1 =>
      have h2 := (List.cons.inj heq).2
      rw [hasPlaceholderMatch.eq_3 c rest h1]
      exact ih pre1 name post h2 hne hnb

theorem hasPlaceholderMatch_iff (l : List Char) :
    hasPlaceholderMatch l = true ↔ containsPlaceholderPattern l := by
  constructor
  · exact hasMatch_decomp l
  · intro h
    obtain ⟨pre, name, post, heq, hne, hnb⟩ := h
    exact hasMatch_of_decomp l pre name post heq hne hnb

theorem placeholderWrap_data (N : String) :
    (placeholderWrap N).data = '$' :: '\x7b' :: (N.data ++ '\x7d' :: []) := by
  simp [placeholderWrap]

theorem resolveAux_wrap (lookup : String → Option String) (N : String)
    (hne : N.data ≠ []) (hnb : '\x7d' ∉ N.data) :
    resolveAux lookup (placeholderWrap N).data = replaceVar lookup N.data := by
  rw [placeholderWrap_data, resolveAux.eq_2, spanName_append [] N.data hne hnb]
  show replaceVar lookup N.data ++ resolveAux lookup [] = replaceVar lookup N.data
  rw [resolveAux.eq_1, List.append_nil]

/-- Claim C8: for every string with no occurrence of the pattern `${NAME}`,
`_resolve_env_vars` is the identity; for a valid name absent from the lookup
source, `${N}` resolves to itself and re-resolving is stable; for a name
present with value `V`, `${N}` resolves to `V`. -/
theorem c8_resolver_algebra :
    (∀ (lookup : String → Option String) (s : String),
        ¬ containsPlaceholderPattern s.data → resolveEnvVars lookup s = s) ∧
    (∀ (lookup : String → Option String) (N : String),
        N.data ≠ [] → '\x7d' ∉ N.data → lookup N = none →
          resolveEnvVars lookup (placeholderWrap N) = placeholderWrap N ∧
          resolveEnvVars lookup (resolveEnvVars lookup (placeholderWrap N)) =
            placeholderWrap N) ∧
    (∀ (lookup : String → Option String) (N V : String),
        N.data ≠ [] → '\x7d' ∉ N.data → lookup N = some V →
          resolveEnvVars lookup (placeholderWrap N) = V) := by
  refine ⟨?_, ?_, ?_⟩
  · intro lookup s h
    have hm : hasPlaceholderMatch s.data = false := by
      cases hb : hasPlaceholderMatch s.data with
      | false => rfl
      | true => exact absurd ((hasPlaceholderMatch_iff s.data).mp hb) h
    unfold resolveEnvVars
    rw [resolveAux_no_match lookup s.data hm]
  · intro lookup N hne hnb hl
    have key : resolveEnvVars lookup (placeholderWrap N) = placeholderWrap N := by
      unfold resolveEnvVars
      rw [resolveAux_wrap lookup N hne hnb]
      simp only [replaceVar, strMkData, hl]
      rw [← strMkData (placeholderWrap N), placeholderWrap_data]
    exact ⟨key, by rw [key, key]⟩
  · intro lookup N V hne hnb hl
    unfold resolveEnvVars
    rw [resolveAux_wrap lookup N hne hnb]
    simp only [replaceVar, strMkData, hl]

/-- Witness for C8 at concrete inputs: a plain string, a missing variable,
and a present variable. -/
theorem c8_resolver_algebra_witness :
    resolveEnvVars (fun v => if v = "FOO" then some "bar" else none) "hello" =
      "hello" ∧
    resolveEnvVars (fun _ => none) (placeholderWrap "MISSING") =
      placeholderWrap "MISSING" ∧
    resolveEnvVars (fun v => if v = "FOO" then some "bar" else none)
      (placeholderWrap "FOO") = "bar" :=
  ⟨c8_resolver_algebra.1 _ "hello"
      (fun hc => absurd ((hasPlaceholderMatch_iff _).mpr hc)
        (by simp [hasPlaceholderMatch, spanName, splitAtBrace])),
    (c8_resolver_algebra.2.1 _ "MISSING" (by decide) (by decide) rfl).1,
    c8_resolver_algebra.2.2 _ "FOO" "bar" (by decide) (by decide) (by simp)⟩

theorem resolveItems_map (lookup : String → Option String) :
    ∀ items : List JValue,
      resolveItems lookup items = items.map (fun v => resolveDictEnvVars lookup v) := by
  intro items
  induction items with
  | nil => simp [resolveItems]
  | cons v vs ih => simp [resolveItems, ih]

theorem resolveFields_map (lookup : String → Option String) :
    ∀ kvs : List (String × JValue),
      resolveFields lookup kvs =
        kvs.map (fun kv => (kv.fst, resolveDictEnvVars lookup kv.snd)) := by
  intro kvs
  induction kvs with
  | nil => simp [resolveFields]
  | cons kv kvs ih =>
    obtain ⟨k, v⟩ := kv
    simp [resolveFields, ih]

/-- Claim C9: `_resolve_dict_env_vars` resolves mappings value-wise with keys
untouched, lists element-wise, strings via `_resolve_env_vars`, returns every
other scalar unchanged, and is total (no error path) — it is a plain Lean
function defined on all of `JValue`. -/
theorem c9_recursive_resolver :
    ∀ lookup : String → Option String,
      (∀ fields : List (String × JValue),
        resolveDictEnvVars lookup (.obj fields) =
          .obj (fields.map (fun kv => (kv.fst, resolveDictEnvVars lookup kv.snd)))) ∧
      (∀ items : List JValue,
        resolveDictEnvVars lookup (.arr items) =
          .arr (items.map (fun v => resolveDictEnvVars lookup v))) ∧
      (∀ s : String,
        resolveDictEnvVars lookup (.str s) = .str (resolveEnvVars lookup s)) ∧
      (∀ n : Int, resolveDictEnvVars lookup (.num n) = .num n) ∧
      (∀ b : Bool, resolveDictEnvVars lookup (.boolV b) = .boolV b) ∧
      resolveDictEnvVars lookup .nullV = .nullV := by
  intro lookup
  refine ⟨?_, ?_, ?_, ?_, ?_, ?_⟩
  · intro fields
    rw [resolveDictEnvVars, resolveFields_map]
  · intro items
    rw [resolveDictEnvVars, resolveItems_map]
  · intro s
    rw [resolveDictEnvVars]
  · intro n
    rw [resolveDictEnvVars]
  · intro b
    rw [resolveDictEnvVars]
  · rw [resolveDictEnvVars]

/-! ## Job Registry lemmas -/

theorem loadDemarches_eq : ∀ entries : List DemarcheData,
    loadDemarches entries =
      (entries.filterMap keepEntry, entries.filterMap warnEntry) := by
  intro entries
  induction entries with
  | nil => rfl
  | cons e rest ih =>
    simp only [loadDemarches, ih, List.filterMap_cons, keepEntry, warnEntry]
    by_cases htok : strStarts (e.api_token.getD "") placeholderMarker <;> simp [htok]

theorem loadDemarches_no_marker {entries : List DemarcheData}
    {d : DemarcheConfig} (h : d ∈ (loadDemarches entries).fst) :
    strStarts d.api_token placeholderMarker = false := by
  rw [loadDemarches_eq] at h
  obtain ⟨e, -, hk⟩ := List.mem_filterMap.mp h
  unfold keepEntry at hk
  by_cases htok : strStarts (e.api_token.getD "") placeholderMarker
  · rw [if_pos htok] at hk
    exact absurd hk (by simp)
  · rw [if_neg htok] at hk
    have := Option.some.inj hk
    rw [← this]
    exact Bool.eq_false_iff.mpr htok

/-- Claim C2 counterexample: a job entry whose token is the empty string is
not excluded by `_load_demarches` — it yields a `JobConfig` with an empty
token and no warning, although the claim demands it be warned about and
excluded. -/
theorem c2_counterexample :
    loadDemarches
        [{ number := 1, name := "a", api_token := some "", api_url := none,
           enabled := none, sync_config := none, filters := none }] =
      ([{ number := 1, name := "a", api_token := "", api_url := defaultApiUrl,
          enabled := true, sync_config := emptySyncConfig,
          filters := emptyFilters }], []) ∧
    ({ number := 1, name := "a", api_token := "", api_url := defaultApiUrl,
       enabled := true, sync_config := emptySyncConfig,
       filters := emptyFilters } : DemarcheConfig).api_token = "" := by
  constructor <;> decide

/-- Claim C2 (amended): `_load_demarches` processes entries in document
order; an entry is excluded — with a warning carrying the job number and the
unresolved token — exactly when its token starts with the placeholder marker
`${`; every other entry (including one with an empty token, or with a
placeholder not at the start) yields exactly one `JobConfig`. -/
theorem c2_amended_registry_filter :
    ∀ entries : List DemarcheData,
      loadDemarches entries =
        (entries.filterMap keepEntry, entries.filterMap warnEntry) :=
  loadDemarches_eq

/-! ## Validation lemmas -/

theorem filterMapEmptyAll (p : DemarcheConfig → Bool) (f : DemarcheConfig → Int) :
    ∀ ds : List DemarcheConfig,
      ((ds.filter p).map f).isEmpty = ds.all (fun d => !(p d)) := by
  intro ds
  induction ds with
  | nil => rfl
  | cons d rest ih => by_cases hp : p d <;> simp [List.filter_cons, hp, ih]

/-- Claim C5 counterexample: a configuration whose sole job has a
placeholder-shaped token, together with a fully valid grist block, is
declared VALID by `validate_configuration` — the offending job was silently
dropped from the registry by `_load_demarches`, so it is neither enumerated
nor does it make validation fail, although the claim demands `false`. -/
theorem c5_counterexample :
    strStarts "$\x7bTOK\x7d" placeholderMarker = true ∧
    (validateConfiguration exGrist
      (loadDemarches
        [{ number := 7, name := "j", api_token := some "$\x7bTOK\x7d",
           api_url := none, enabled := none, sync_config := none,
           filters := none }]).fst).valid = true ∧
    (validateConfiguration exGrist
      (loadDemarches
        [{ number := 7, name := "j", api_token := some "$\x7bTOK\x7d",
           api_url := none, enabled := none, sync_config := none,
           filters := none }]).fst).demarcheViolations = [] := by
  refine ⟨by decide, by decide, by decide⟩

/-- Claim C5 (amended): `validate_configuration` checks the three
target-store fields and every REGISTRY job's token; placeholder-shaped
tokens were already excluded from the registry by `_load_demarches`, so over
the load-then-validate pipeline its verdict is: valid iff the three grist
fields are present, non-empty and not placeholder-shaped and no registry
job's token is empty, and the enumerated job violations are exactly the
registry jobs with an empty token.  (It raises nothing and mutates nothing —
it is a pure function of the loaded data.) -/
theorem c5_amended_validate :
    ∀ (g : GristData) (entries : List DemarcheData),
      (validateConfiguration g (loadDemarches entries).fst).valid =
        ((!gristFieldBad g.base_url && !gristFieldBad g.api_key &&
            !gristFieldBad g.doc_id) &&
          (loadDemarches entries).fst.all (fun d => !(d.api_token == ""))) ∧
      (validateConfiguration g (loadDemarches entries).fst).demarcheViolations =
        ((loadDemarches entries).fst.filter (fun d => d.api_token == "")).map
          (fun d => d.number) := by
  intro g entries
  have hfil : (loadDemarches entries).fst.filter
        (fun d => d.api_token == "" || strStarts d.api_token placeholderMarker) =
      (loadDemarches entries).fst.filter (fun d => d.api_token == "") := by
    apply List.filter_congr
    intro d hd
    rw [loadDemarches_no_marker hd]
    simp
  constructor
  · unfold validateConfiguration
    rw [hfil]
    cases hb1 : gristFieldBad g.base_url <;>
      cases hb2 : gristFieldBad g.api_key <;>
      cases hb3 : gristFieldBad g.doc_id <;>
      simp [filterMapEmptyAll]
  · unfold validateConfiguration
    rw [hfil]

/-! ## Loader lemmas -/

theorem sectionCheck_shape (v : JValue) :
    sectionCheck v ≠ .notFoundError ∧ (∀ d, sectionCheck v ≠ .formatError d) := by
  unfold sectionCheck
  rcases h1 : pyContains v "grist" with - | b1
  · simp
  · cases b1
    · simp
    · rcases h2 : pyContains v "demarches" with - | b2
      · simp
      · cases b2 <;> simp

/-- Claim C6 counterexample: a syntactically valid document that is a bare
JSON string containing `"grist"` and `"demarches"` as substrings has no
top-level sections at all, yet `_load_config` returns it successfully
instead of failing with `SchemaError` — the required-section check is a
Python `in` test, which on a string is substring membership. -/
theorem c6_counterexample :
    loadConfig (fun _ => none) (some (.ok (.str "grist demarches"))) =
      .ok (.str "grist demarches") ∧
    hasTopLevelSection (.str "grist demarches") "grist" = false ∧
    hasTopLevelSection (.str "grist demarches") "demarches" = false := by
  refine ⟨?_, rfl, rfl⟩
  simp [loadConfig, sectionCheck, resolveDictEnvVars, resolveEnvVars, resolveAux,
    spanName, splitAtBrace, replaceVar, pyContains, containsSub, chStarts]

/-- Claim C6 (amended): `_load_config` fails with `NotFoundError` exactly
when the path does not exist, with `FormatError` (wrapping the parse
diagnostic) exactly when the document is not valid JSON; for a parsed
document it applies the Placeholder Resolver recursively and then runs the
required-section check — Python `in` on the resolved document, checking
`'grist'` first: key membership for a mapping, element membership for a
list, SUBSTRING membership for a string, and an uncaught `TypeError` for
any other scalar — failing with `SchemaError` exactly when that containment
is false, and otherwise returning the resolved tree without checking whether
individual placeholders resolved. -/
theorem c6_amended_load_config :
    ∀ lookup : String → Option String,
      (∀ file, loadConfig lookup file = .notFoundError ↔ file = none) ∧
      (∀ file diag,
        loadConfig lookup file = .formatError diag ↔ file = some (.error diag)) ∧
      (∀ doc, loadConfig lookup (some (.ok doc)) =
        sectionCheck (resolveDictEnvVars lookup doc)) ∧
      (∀ v, (sectionCheck v = .schemaError "grist" ↔
              pyContains v "grist" = some false) ∧
            (sectionCheck v = .schemaError "demarches" ↔
              pyContains v "grist" = some true ∧
                pyContains v "demarches" = some false) ∧
            (sectionCheck v = .ok v ↔
              pyContains v "grist" = some true ∧
                pyContains v "demarches" = some true) ∧
            (sectionCheck v = .typeError ↔
              pyContains v "grist" = none ∨
                (pyContains v "grist" = some true ∧
                  pyContains v "demarches" = none))) := by
  intro lookup
  refine ⟨?_, ?_, ?_, ?_⟩
  · intro file
    match file with
    | none => simp [loadConfig]
    | some (.error d) => simp [loadConfig]
    | some (.ok doc) =>
      simp only [loadConfig]
      constructor
      · intro h
        exact absurd h (sectionCheck_shape _).1
      · intro h
        exact absurd h (by simp)
  · intro file diag
    match file with
    | none => simp [loadConfig]
    | some (.error d) => simp [loadConfig]
    | some (.ok doc) =>
      simp only [loadConfig]
      constructor
      · intro h
        exact absurd h ((sectionCheck_shape _).2 diag)
      · intro h
        exact absurd h (by simp)
  · intro doc
    rfl
  · intro v
    unfold sectionCheck
    rcases h1 : pyContains v "grist" with - | b1
    · simp
    · cases b1
      · simp
      · rcases h2 : pyContains v "demarches" with - | b2
        · simp
        · cases b2 <;> simp

/-! ## Environment Stager lemmas -/

theorem stageWrites_eq (dc : DemarcheConfig) (n : Int) (bu ak di : String)
    (denv : DotenvFile) (ctx : ExecutionContext) :
    stageWrites dc n bu ak di denv ctx = stagedContext dc n bu ak di denv := rfl

theorem getDemarcheConfig_number : ∀ (ds : List DemarcheConfig) (n : Int)
    (dc : DemarcheConfig), getDemarcheConfig ds n = some dc → dc.number = n := by
  intro ds
  induction ds with
  | nil => intro n dc h; simp [getDemarcheConfig] at h
  | cons d rest ih =>
    intro n dc h
    rw [getDemarcheConfig] at h
    by_cases hd : d.number = n
    · rw [if_pos hd] at h
      rw [← Option.some.inj h]
      exact hd
    · rw [if_neg hd] at h
      exact ih n dc h

theorem setEnv_err (ds : List DemarcheConfig) (g : GristData)
    (denv : DotenvFile) (n : Int) (p : ProbeOutcome) (ctx : ExecutionContext)
    (h : stageOkBool ds n = false) :
    setEnvironmentForDemarche ds g denv n p ctx = some (false, ctx) := by
  unfold setEnvironmentForDemarche
  split
  · rfl
  · rename_i dc heq
    unfold stageOkBool at h
    rw [heq] at h
    have h2 : (!(dc.api_token == "" || strStarts dc.api_token placeholderMarker))
        = false := h
    have htok : (dc.api_token == "" || strStarts dc.api_token placeholderMarker)
        = true := by
      cases hx : (dc.api_token == "" || strStarts dc.api_token placeholderMarker) with
      | false => rw [hx] at h2; exact absurd h2 (by simp)
      | true => rfl
    exact if_pos htok

theorem setEnv_ok (ds : List DemarcheConfig) (g : GristData)
    (denv : DotenvFile) (n : Int) (p : ProbeOutcome) (ctx : ExecutionContext)
    (dc : DemarcheConfig) (bu ak di : String)
    (hdc : getDemarcheConfig ds n = some dc)
    (hok : stageOkBool ds n = true) (hb : g.base_url = some bu)
    (hk : g.api_key = some ak) (hd : g.doc_id = some di) :
    setEnvironmentForDemarche ds g denv n p ctx =
      some (true, stagedContext dc n bu ak di denv) := by
  unfold stageOkBool at hok
  rw [hdc] at hok
  have hok2 : (!(dc.api_token == "" || strStarts dc.api_token placeholderMarker))
      = true := hok
  have htok : (dc.api_token == "" || strStarts dc.api_token placeholderMarker)
      = false := by
    cases hx : (dc.api_token == "" || strStarts dc.api_token placeholderMarker) with
    | false => rfl
    | true => rw [hx] at hok2; exact absurd hok2 (by simp)
  unfold setEnvironmentForDemarche
  split
  · rename_i heq
    rw [heq] at hdc
    exact absurd hdc (by simp)
  · rename_i dc2 heq
    rw [heq] at hdc
    have hdc2 : dc2 = dc := Option.some.inj hdc
    subst hdc2
    refine Eq.trans (if_neg (by simp [htok])) ?_
    rw [hb, hk, hd]
    cases p <;> rfl

theorem setEnv_inv (ds : List DemarcheConfig) (g : GristData)
    (denv : DotenvFile) (n : Int) (p : ProbeOutcome) (ctx : ExecutionContext)
    (b : Bool) (ctx' : ExecutionContext)
    (h : setEnvironmentForDemarche ds g denv n p ctx = some (b, ctx')) :
    (b = false ∧ ctx' = ctx ∧ stageOkBool ds n = false) ∨
    (b = true ∧ stageOkBool ds n = true ∧
      ∃ dc bu ak di, getDemarcheConfig ds n = some dc ∧ g.base_url = some bu ∧
        g.api_key = some ak ∧ g.doc_id = some di ∧
        ctx' = stagedContext dc n bu ak di denv) := by
  unfold setEnvironmentForDemarche at h
  split at h
  · rename_i heq
    obtain ⟨h1, h2⟩ := Prod.mk.inj (Option.some.inj h)
    left
    refine ⟨h1.symm, h2.symm, ?_⟩
    unfold stageOkBool
    rw [heq]
  · rename_i dc heq
    split at h
    · rename_i hcond
      obtain ⟨h1, h2⟩ := Prod.mk.inj (Option.some.inj h)
      left
      refine ⟨h1.symm, h2.symm, ?_⟩
      unfold stageOkBool
      rw [heq]
      have hgoal : (!(dc.api_token == "" || strStarts dc.api_token placeholderMarker))
          = false := by simp [hcond]
      exact hgoal
    · rename_i hcond
      have hcf : (dc.api_token == "" || strStarts dc.api_token placeholderMarker)
          = false := by
        cases hx : (dc.api_token == "" || strStarts dc.api_token placeholderMarker) with
        | false => rfl
        | true => exact absurd hx hcond
      have hok : stageOkBool ds n = true := by
        unfold stageOkBool
        rw [heq]
        have hgoal : (!(dc.api_token == "" || strStarts dc.api_token placeholderMarker))
            = true := by simp [hcf]
        exact hgoal
      split at h
      · rename_i bu ak di hbu hak hdi
        cases p <;>
          (obtain ⟨h1, h2⟩ := Prod.mk.inj (Option.some.inj h)
           right
           exact ⟨h1.symm, hok, dc, bu, ak, di, heq, hbu, hak, hdi,
             h2.symm.trans (stageWrites_eq dc n bu ak di denv ctx)⟩)
      · exact absurd h (by simp)

theorem chStarts_of_containsSub {needle hay : List Char}
    (h : containsSub needle hay = false) : chStarts needle hay = false := by
  cases hay with
  | nil =>
    cases needle with
    | nil => simp [containsSub] at h
    | cons c cs => rfl
  | cons c rest =>
    unfold containsSub at h
    exact (Bool.or_eq_false_iff.mp h).1

/-- Claim C1 counterexample: with an external `.env` file defining the
legacy `DEMARCHES_API_TOKEN` variable, staging job 1 and then job 2 both
succeed, yet the API-token slot of the final context holds the `.env` value
`"dotenv-token"`, not job 2's configured token `"tokenB"` — the
`load_dotenv(override=True)` reload between the credential writes and the
remaining writes clobbers the freshly staged token, so the claim that every
slot equals the value determined by B's configuration is false. -/
theorem c1_counterexample :
    setEnvironmentForDemarche exRegistry exGrist exDotenvTok 1 .okAccess exCtx0 =
      some (true, stagedContext exJobA 1 "https://grist.example" "gkey" "gdoc"
        exDotenvTok) ∧
    setEnvironmentForDemarche exRegistry exGrist exDotenvTok 2 .okAccess
        (stagedContext exJobA 1 "https://grist.example" "gkey" "gdoc" exDotenvTok) =
      some (true, stagedContext exJobB 2 "https://grist.example" "gkey" "gdoc"
        exDotenvTok) ∧
    (stagedContext exJobB 2 "https://grist.example" "gkey" "gdoc"
        exDotenvTok).demarches_api_token = "dotenv-token" ∧
    exJobB.api_token = "tokenB" ∧
    (stagedContext exJobB 2 "https://grist.example" "gkey" "gdoc"
        exDotenvTok).demarches_api_token ≠ exJobB.api_token := by
  refine ⟨by decide, by decide, by decide, by decide, by decide⟩

/-- Claim C1 (amended): staging job A and then job B through
`set_environment_for_demarche`, with both calls succeeding, leaves every
shared execution-context slot equal to a value determined by B's
configuration (with its per-field defaults), the grist target and the
external `.env` file alone — the final context is `stagedContext` of B: the
three credential slots (API token, endpoint, job number) carry the `.env`
value when that file defines them (the `load_dotenv(override=True)` reload
runs after they are written) and B's value otherwise, and the remaining
ten slots always carry B's values; nothing staged for A, and no earlier
slot value, survives. -/
theorem c1_amended_staging_isolation :
    ∀ (ds : List DemarcheConfig) (g : GristData) (denv : DotenvFile)
      (nA nB : Int) (pA pB : ProbeOutcome) (ctx0 ctx1 ctx2 : ExecutionContext),
      setEnvironmentForDemarche ds g denv nA pA ctx0 = some (true, ctx1) →
      setEnvironmentForDemarche ds g denv nB pB ctx1 = some (true, ctx2) →
      ∃ dcB bu ak di,
        getDemarcheConfig ds nB = some dcB ∧ g.base_url = some bu ∧
        g.api_key = some ak ∧ g.doc_id = some di ∧
        ctx2 = stagedContext dcB nB bu ak di denv := by
  intro ds g denv nA nB pA pB ctx0 ctx1 ctx2 hA hB
  rcases setEnv_inv ds g denv nB pB ctx1 true ctx2 hB with
    ⟨hfalse, -, -⟩ | ⟨-, -, dcB, bu, ak, di, h1, h2, h3, h4, h5⟩
  · exact absurd hfalse (by simp)
  · exact ⟨dcB, bu, ak, di, h1, h2, h3, h4, h5⟩

/-- Witness for the amended C1: staging job 1 then job 2 of the concrete
registry under the token-overriding `.env` file. -/
theorem c1_amended_staging_isolation_witness :
    ∃ dcB bu ak di,
      getDemarcheConfig exRegistry 2 = some dcB ∧ exGrist.base_url = some bu ∧
      exGrist.api_key = some ak ∧ exGrist.doc_id = some di ∧
      stagedContext exJobB 2 "https://grist.example" "gkey" "gdoc" exDotenvTok =
        stagedContext dcB 2 bu ak di exDotenvTok :=
  c1_amended_staging_isolation exRegistry exGrist exDotenvTok 1 2 .okAccess
    (.exn "network down") exCtx0
    (stagedContext exJobA 1 "https://grist.example" "gkey" "gdoc" exDotenvTok)
    (stagedContext exJobB 2 "https://grist.example" "gkey" "gdoc" exDotenvTok)
    (by decide) (by decide)

/-- Claim C3: for a registry job whose token is non-empty and fully resolved
(no `${` marker anywhere in it), `set_environment_for_demarche` returns True
for EVERY probe outcome — success, remote-reported error, non-200 status, or
raised exception (the statement is quantified over all probe outcomes);
conversely, a False return arises only from step 1: the id matches no job,
or the matched token is empty or placeholder-shaped. -/
theorem c3_probe_nonfatal :
    (∀ (ds : List DemarcheConfig) (g : GristData) (denv : DotenvFile) (n : Int)
      (p : ProbeOutcome) (ctx : ExecutionContext) (dc : DemarcheConfig)
      (bu ak di : String),
        getDemarcheConfig ds n = some dc →
        dc.api_token ≠ "" →
        containsSub placeholderMarker.data dc.api_token.data = false →
        g.base_url = some bu → g.api_key = some ak → g.doc_id = some di →
        setEnvironmentForDemarche ds g denv n p ctx =
          some (true, stagedContext dc n bu ak di denv)) ∧
    (∀ (ds : List DemarcheConfig) (g : GristData) (denv : DotenvFile) (n : Int)
      (p : ProbeOutcome) (ctx ctx' : ExecutionContext),
        setEnvironmentForDemarche ds g denv n p ctx = some (false, ctx') →
        getDemarcheConfig ds n = none ∨
        ∃ dc, getDemarcheConfig ds n = some dc ∧
          (dc.api_token = "" ∨ strStarts dc.api_token placeholderMarker = true)) := by
  constructor
  · intro ds g denv n p ctx dc bu ak di hdc hne hsub hbu hak hdi
    have hb1 : (dc.api_token == "") = false := by
      cases hx : dc.api_token == "" with
      | false => rfl
      | true => exact absurd (by simpa using hx) hne
    have hb2 : strStarts dc.api_token placeholderMarker = false := by
      unfold strStarts
      exact chStarts_of_containsSub hsub
    have hok : stageOkBool ds n = true := by
      unfold stageOkBool
      rw [hdc]
      have hred : (!(dc.api_token == "" || strStarts dc.api_token placeholderMarker))
          = true := by simp [hb1, hb2]
      exact hred
    exact setEnv_ok ds g denv n p ctx dc bu ak di hdc hok hbu hak hdi
  · intro ds g denv n p ctx ctx' h
    rcases setEnv_inv ds g denv n p ctx false ctx' h with ⟨-, -, hfail⟩ | ⟨htrue, -⟩
    · unfold stageOkBool at hfail
      cases hq : getDemarcheConfig ds n with
      | none => exact Or.inl rfl
      | some dc =>
        rw [hq] at hfail
        have hf2 : (!(dc.api_token == "" || strStarts dc.api_token placeholderMarker))
            = false := hfail
        have hcond : (dc.api_token == "" || strStarts dc.api_token placeholderMarker)
            = true := by
          cases hx : (dc.api_token == "" || strStarts dc.api_token placeholderMarker) with
          | false => rw [hx] at hf2; exact absurd hf2 (by simp)
          | true => rfl
        refine Or.inr ⟨dc, rfl, ?_⟩
        rcases Bool.or_eq_true_iff.mp hcond with hl | hr
        · exact Or.inl (by simpa using hl)
        · exact Or.inr hr
    · exact absurd htrue (by simp)

/-- Witness for C3: job 1 of the concrete registry is staged successfully
under each of the four probe outcomes. -/
theorem c3_probe_nonfatal_witness :
    setEnvironmentForDemarche exRegistry exGrist exDotenvNone 1 .okAccess exCtx0 =
      some (true,
        stagedContext exJobA 1 "https://grist.example" "gkey" "gdoc" exDotenvNone) ∧
    setEnvironmentForDemarche exRegistry exGrist exDotenvNone 1
        (.inaccessible ["denied"]) exCtx0 =
      some (true,
        stagedContext exJobA 1 "https://grist.example" "gkey" "gdoc" exDotenvNone) ∧
    setEnvironmentForDemarche exRegistry exGrist exDotenvNone 1
        (.httpError 500) exCtx0 =
      some (true,
        stagedContext exJobA 1 "https://grist.example" "gkey" "gdoc" exDotenvNone) ∧
    setEnvironmentForDemarche exRegistry exGrist exDotenvNone 1
        (.exn "timeout") exCtx0 =
      some (true,
        stagedContext exJobA 1 "https://grist.example" "gkey" "gdoc" exDotenvNone) :=
  ⟨c3_probe_nonfatal.1 exRegistry exGrist exDotenvNone 1 .okAccess exCtx0 exJobA
      "https://grist.example" "gkey" "gdoc" (by decide) (by decide) (by decide)
      rfl rfl rfl,
    c3_probe_nonfatal.1 exRegistry exGrist exDotenvNone 1 (.inaccessible ["denied"])
      exCtx0 exJobA "https://grist.example" "gkey" "gdoc" (by decide) (by decide)
      (by decide) rfl rfl rfl,
    c3_probe_nonfatal.1 exRegistry exGrist exDotenvNone 1 (.httpError 500) exCtx0
      exJobA "https://grist.example" "gkey" "gdoc" (by decide) (by decide)
      (by decide) rfl rfl rfl,
    c3_probe_nonfatal.1 exRegistry exGrist exDotenvNone 1 (.exn "timeout") exCtx0
      exJobA "https://grist.example" "gkey" "gdoc" (by decide) (by decide)
      (by decide) rfl rfl rfl⟩

/-- Claim C10: staging is atomic on its error path — whenever
`set_environment_for_demarche` returns False, the shared execution context
is returned exactly as it was before the call: no slot has been written. -/
theorem c10_error_path_atomic :
    ∀ (ds : List DemarcheConfig) (g : GristData) (denv : DotenvFile) (n : Int)
      (p : ProbeOutcome) (ctx ctx' : ExecutionContext),
      setEnvironmentForDemarche ds g denv n p ctx = some (false, ctx') →
      ctx' = ctx := by
  intro ds g denv n p ctx ctx' h
  rcases setEnv_inv ds g denv n p ctx false ctx' h with ⟨-, h2, -⟩ | ⟨htrue, -⟩
  · exact h2
  · exact absurd htrue (by simp)

/-- Witness for C10: staging the unknown id 999 fails and leaves the
concrete context untouched. -/
theorem c10_error_path_atomic_witness :
    setEnvironmentForDemarche exRegistry exGrist exDotenvTok 999 .okAccess exCtx0 =
      some (false, exCtx0) ∧ exCtx0 = exCtx0 :=
  ⟨by decide,
    c10_error_path_atomic exRegistry exGrist exDotenvTok 999 .okAccess exCtx0
      exCtx0 (by decide)⟩

/-! ## Orchestrator lemmas -/

theorem syncJobs_spec (ds : List DemarcheConfig) (g : GristData)
    (denv : DotenvFile) (probe : Int → ProbeOutcome)
    (call : Int → Except String Bool) (dur : Int → Nat) :
    ∀ (l : List DemarcheConfig) (ctx : ExecutionContext)
      (res : List SyncResult) (ctxF : ExecutionContext),
      syncJobs ds g denv probe call dur l ctx = some (res, ctxF) →
      res = l.map (expectedJobResult ds call dur) := by
  intro l
  induction l with
  | nil =>
    intro ctx res ctxF h
    rw [syncJobs] at h
    obtain ⟨h1, -⟩ := Prod.mk.inj (Option.some.inj h)
    subst h1
    rfl
  | cons d rest ih =>
    intro ctx res ctxF h
    rw [syncJobs] at h
    split at h
    · exact absurd h (by simp)
    · rename_i ctx1 heq
      split at h
      · exact absurd h (by simp)
      · rename_i res1 ctxF1 heq2
        obtain ⟨h1, -⟩ := Prod.mk.inj (Option.some.inj h)
        have hfail : stageOkBool ds d.number = false := by
          rcases setEnv_inv ds g denv d.number (probe d.number) ctx false ctx1 heq with
            ⟨-, -, hf⟩ | ⟨ht, -⟩
          · exact hf
          · exact absurd ht (by simp)
        rw [← h1, List.map_cons]
        congr 1
        · unfold expectedJobResult
          rw [hfail]
          simp
        · exact ih ctx1 res1 ctxF1 heq2
    · rename_i ctx1 heq
      split at h
      · exact absurd h (by simp)
      · rename_i res1 ctxF1 heq2
        obtain ⟨h1, -⟩ := Prod.mk.inj (Option.some.inj h)
        have hok : stageOkBool ds d.number = true := by
          rcases setEnv_inv ds g denv d.number (probe d.number) ctx true ctx1 heq with
            ⟨hf, -, -⟩ | ⟨-, hoks, -⟩
          · exact absurd hf (by simp)
          · exact hoks
        rw [← h1, List.map_cons]
        congr 1
        · unfold expectedJobResult
          rw [hok]
          simp
        · exact ih ctx1 res1 ctxF1 heq2

/-- Claim C4: in a `sync_all_demarches` run that completes, the result list
is exactly one `SyncResult` per enabled job in document order (the map of
the per-job outcome over the enabled registry); and for any enabled job that
stages successfully and whose external collaborator call raises, the
recorded result has `success = false` and a non-empty, singleton error list
carrying the exception's message — the exception never aborts the run. -/
theorem c4_sync_exception_isolation :
    ∀ (ds : List DemarcheConfig) (g : GristData) (denv : DotenvFile)
      (probe : Int → ProbeOutcome) (call : Int → Except String Bool)
      (dur : Int → Nat) (ctx ctxF : ExecutionContext) (res : List SyncResult),
      syncAllDemarches ds g denv probe call dur ctx = some (res, ctxF) →
      res = (getEnabledDemarches ds).map (expectedJobResult ds call dur) ∧
      (∀ (d : DemarcheConfig) (e : String),
        stageOkBool ds d.number = true → call d.number = .error e →
        expectedJobResult ds call dur d =
          { demarche_number := d.number, demarche_name := d.name,
            success := false, dossiers_processed := 0,
            errors := ["Erreur lors de la synchronisation : " ++ e],
            duration_seconds := dur d.number } ∧
        ["Erreur lors de la synchronisation : " ++ e] ≠ []) := by
  intro ds g denv probe call dur ctx ctxF res h
  constructor
  · exact syncJobs_spec ds g denv probe call dur (getEnabledDemarches ds) ctx res
      ctxF h
  · intro d e hok hcall
    constructor
    · unfold expectedJobResult
      rw [hok, hcall]
      simp [syncSingleDemarche]
    · simp

/-- Witness for C4: a three-job run in which job 2's collaborator call
raises `"boom"` — the run completes with one result per enabled job, and
job 2's per-job outcome is the converted failure. -/
theorem c4_sync_exception_isolation_witness :
    ([syncSingleDemarche exJobA (.ok true) 5,
      syncSingleDemarche exJobB (.error "boom") 5,
      envFailResult exJobBad] : List SyncResult) =
      (getEnabledDemarches exRegistry).map
        (expectedJobResult exRegistry
          (fun n => if n = 2 then .error "boom" else .ok true) (fun _ => 5)) ∧
    (expectedJobResult exRegistry
        (fun n => if n = 2 then .error "boom" else .ok true) (fun _ => 5) exJobB =
      { demarche_number := exJobB.number, demarche_name := exJobB.name,
        success := false, dossiers_processed := 0,
        errors := ["Erreur lors de la synchronisation : " ++ "boom"],
        duration_seconds := 5 } ∧
      ["Erreur lors de la synchronisation : " ++ "boom"] ≠ []) :=
  have h := c4_sync_exception_isolation exRegistry exGrist exDotenvNone
    (fun _ => .okAccess)
    (fun n => if n = 2 then .error "boom" else .ok true) (fun _ => 5) exCtx0
    (stagedContext exJobB 2 "https://grist.example" "gkey" "gdoc" exDotenvNone)
    [syncSingleDemarche exJobA (.ok true) 5,
      syncSingleDemarche exJobB (.error "boom") 5,
      envFailResult exJobBad] (by decide)
  ⟨h.1, h.2 exJobB "boom" (by decide) rfl⟩

theorem syncSel_spec (ds : List DemarcheConfig) (g : GristData)
    (denv : DotenvFile) (probe : Int → ProbeOutcome)
    (call : Int → Except String Bool) (dur : Int → Nat) (force : Bool) :
    ∀ (ns : List Int) (ctx : ExecutionContext) (res : List SyncResult)
      (ctxF : ExecutionContext) (trace : List Int),
      syncSpecificDemarches ds g denv probe call dur force ns ctx =
        some (res, ctxF, trace) →
      res = ns.filterMap (expectedSelResult ds call dur force) ∧
      trace = ns.filter (fun n => selStages ds force n) := by
  intro ns
  induction ns with
  | nil =>
    intro ctx res ctxF trace h
    rw [syncSpecificDemarches] at h
    obtain ⟨h1, h2⟩ := Prod.mk.inj (Option.some.inj h)
    obtain ⟨-, h3⟩ := Prod.mk.inj h2
    subst h1
    subst h3
    exact ⟨rfl, rfl⟩
  | cons n rest ih =>
    intro ctx res ctxF trace h
    rw [syncSpecificDemarches] at h
    split at h
    · rename_i heq
      split at h
      · exact absurd h (by simp)
      · rename_i res1 ctxF1 tr1 heq2
        obtain ⟨h1, h2⟩ := Prod.mk.inj (Option.some.inj h)
        obtain ⟨-, h3⟩ := Prod.mk.inj h2
        obtain ⟨ih1, ih2⟩ := ih ctx res1 ctxF1 tr1 heq2
        constructor
        · rw [← h1, ih1, List.filterMap_cons]
          have hE : expectedSelResult ds call dur force n =
              some (notFoundResult n) := by
            unfold expectedSelResult
            rw [heq]
          rw [hE]
        · rw [← h3, ih2, List.filter_cons]
          have hS : selStages ds force n = false := by
            unfold selStages
            rw [heq]
          rw [hS]
          simp
    · rename_i dc heq
      split at h
      · rename_i hskip
        obtain ⟨ih1, ih2⟩ := ih ctx res ctxF trace h
        have hskip2 : dc.enabled = false ∧ force = false := by
          have hand := Bool.and_eq_true_iff.mp hskip
          exact ⟨by simpa using hand.1, by simpa using hand.2⟩
        constructor
        · rw [ih1, List.filterMap_cons]
          have hE : expectedSelResult ds call dur force n = none := by
            unfold expectedSelResult
            rw [heq]
            simp [hskip]
          rw [hE]
        · rw [ih2, List.filter_cons]
          have hS : selStages ds force n = false := by
            unfold selStages
            rw [heq]
            simp [hskip2.1, hskip2.2]
          rw [hS]
          simp
      · rename_i hskip
        have hS : selStages ds force n = true := by
          unfold selStages
          rw [heq]
          cases he : dc.enabled with
          | true => simp [he]
          | false =>
            cases hf : force with
            | true => simp [hf]
            | false => exact absurd (by simp [he, hf]) hskip
        split at h
        · exact absurd h (by simp)
        · rename_i ctx1 heq3
          split at h
          · exact absurd h (by simp)
          · rename_i res1 ctxF1 tr1 heq2
            obtain ⟨h1, h2⟩ := Prod.mk.inj (Option.some.inj h)
            obtain ⟨-, h3⟩ := Prod.mk.inj h2
            obtain ⟨ih1, ih2⟩ := ih ctx1 res1 ctxF1 tr1 heq2
            have hfail : stageOkBool ds n = false := by
              rcases setEnv_inv ds g denv n (probe n) ctx false ctx1 heq3 with
                ⟨-, -, hf⟩ | ⟨ht, -⟩
              · exact hf
              · exact absurd ht (by simp)
            constructor
            · rw [← h1, ih1, List.filterMap_cons]
              have hE : expectedSelResult ds call dur force n =
                  some (envFailSelResult n dc) := by
                unfold expectedSelResult
                rw [heq]
                simp only [hskip, if_neg, hfail]
                simp [hskip, hfail]
              rw [hE]
            · rw [← h3, ih2, List.filter_cons]
              rw [hS]
              simp
        · rename_i ctx1 heq3
          split at h
          · exact absurd h (by simp)
          · rename_i res1 ctxF1 tr1 heq2
            obtain ⟨h1, h2⟩ := Prod.mk.inj (Option.some.inj h)
            obtain ⟨-, h3⟩ := Prod.mk.inj h2
            obtain ⟨ih1, ih2⟩ := ih ctx1 res1 ctxF1 tr1 heq2
            have hok : stageOkBool ds n = true := by
              rcases setEnv_inv ds g denv n (probe n) ctx true ctx1 heq3 with
                ⟨hf, -, -⟩ | ⟨-, hoks, -⟩
              · exact absurd hf (by simp)
              · exact hoks
            constructor
            · rw [← h1, ih1, List.filterMap_cons]
              have hE : expectedSelResult ds call dur force n =
                  some (syncSingleDemarche dc (call n) (dur n)) := by
                unfold expectedSelResult
                rw [heq]
                simp [hskip, hok]
              rw [hE]
            · rw [← h3, ih2, List.filter_cons]
              rw [hS]
              simp

theorem expectedSel_number (ds : List DemarcheConfig)
    (call : Int → Except String Bool) (dur : Int → Nat) (force : Bool)
    (m : Int) (r : SyncResult)
    (h : expectedSelResult ds call dur force m = some r) :
    r.demarche_number = m := by
  unfold expectedSelResult at h
  cases hq : getDemarcheConfig ds m with
  | none =>
    rw [hq] at h
    have h2 : some (notFoundResult m) = some r := h
    rw [← Option.some.inj h2]
    rfl
  | some dc =>
    rw [hq] at h
    have hnum : dc.number = m := getDemarcheConfig_number ds m dc hq
    have h2 : (if (!dc.enabled && !force) = true then (none : Option SyncResult)
        else if stageOkBool ds m = true then
          some (syncSingleDemarche dc (call m) (dur m))
        else some (envFailSelResult m dc)) = some r := h
    by_cases hskip : (!dc.enabled && !force) = true
    · rw [if_pos hskip] at h2
      exact absurd h2 (by simp)
    · rw [if_neg hskip] at h2
      by_cases hok : stageOkBool ds m = true
      · rw [if_pos hok] at h2
        rw [← Option.some.inj h2]
        cases hc : call m <;> simp [syncSingleDemarche, hc, hnum]
      · rw [if_neg hok] at h2
        rw [← Option.some.inj h2]
        rfl

/-- Claim C7: in a completed `sync_specific_demarches` run with
`force_disabled = false`: every requested id with no matching job
contributes an immediate failed `SyncResult` carrying the not-found error
and is never staged; every requested id matching a disabled job is skipped
entirely — no result bears its number and it is never staged; and requesting
exactly one unknown id yields exactly the one failed result with an empty
staging trace. -/
theorem c7_selected_dispatch :
    ∀ (ds : List DemarcheConfig) (g : GristData) (denv : DotenvFile)
      (probe : Int → ProbeOutcome) (call : Int → Except String Bool)
      (dur : Int → Nat) (ns : List Int) (force : Bool)
      (ctx ctxF : ExecutionContext) (res : List SyncResult)
      (trace : List Int),
      syncSpecificDemarches ds g denv probe call dur force ns ctx =
        some (res, ctxF, trace) →
      (∀ n, n ∈ ns → getDemarcheConfig ds n = none →
        notFoundResult n ∈ res ∧ n ∉ trace) ∧
      (force = false → ∀ n dc, n ∈ ns → getDemarcheConfig ds n = some dc →
        dc.enabled = false →
        (∀ r, r ∈ res → r.demarche_number ≠ n) ∧ n ∉ trace) ∧
      (∀ n, ns = [n] → getDemarcheConfig ds n = none →
        res = [notFoundResult n] ∧ (notFoundResult n).success = false ∧
        trace = []) := by
  intro ds g denv probe call dur ns force ctx ctxF res trace h
  obtain ⟨hres, htr⟩ :=
    syncSel_spec ds g denv probe call dur force ns ctx res ctxF trace h
  refine ⟨?_, ?_, ?_⟩
  · intro n hmem hq
    have hE : expectedSelResult ds call dur force n = some (notFoundResult n) := by
      unfold expectedSelResult
      rw [hq]
    have hS : selStages ds force n = false := by
      unfold selStages
      rw [hq]
    constructor
    · rw [hres]
      exact List.mem_filterMap.mpr ⟨n, hmem, hE⟩
    · rw [htr]
      intro hin
      have hp := (List.mem_filter.mp hin).2
      rw [hS] at hp
      exact absurd hp (by simp)
  · intro hforce n dc hmem hq hdis
    have hE : expectedSelResult ds call dur force n = none := by
      unfold expectedSelResult
      rw [hq]
      simp [hdis, hforce]
    have hS : selStages ds force n = false := by
      unfold selStages
      rw [hq]
      simp [hdis, hforce]
    constructor
    · intro r hr hcontra
      rw [hres] at hr
      obtain ⟨m, hm, hEm⟩ := List.mem_filterMap.mp hr
      have hrm := expectedSel_number ds call dur force m r hEm
      rw [hcontra] at hrm
      rw [← hrm] at hEm
      rw [hE] at hEm
      exact absurd hEm (by simp)
    · rw [htr]
      intro hin
      have hp := (List.mem_filter.mp hin).2
      rw [hS] at hp
      exact absurd hp (by simp)
  · intro n hns hq
    subst hns
    have hE : expectedSelResult ds call dur force n = some (notFoundResult n) := by
      unfold expectedSelResult
      rw [hq]
    have hS : selStages ds force n = false := by
      unfold selStages
      rw [hq]
    refine ⟨?_, rfl, ?_⟩
    · rw [hres]
      simp [List.filterMap_cons, hE]
    · rw [htr]
      simp [List.filter_cons, hS]

/-- Witness for C7: requesting the unknown id 999 against a one-job registry
yields the single not-found failure, with an empty staging trace. -/
theorem c7_selected_dispatch_witness :
    (notFoundResult 999 ∈ ([notFoundResult 999] : List SyncResult) ∧
      999 ∉ ([] : List Int)) ∧
    (([notFoundResult 999] : List SyncResult) = [notFoundResult 999] ∧
      (notFoundResult 999).success = false ∧ ([] : List Int) = []) :=
  have h := c7_selected_dispatch [exJobA] exGrist exDotenvNone
    (fun _ => .okAccess) (fun _ => .ok true) (fun _ => 0) [999] false exCtx0
    exCtx0 [notFoundResult 999] [] (by decide)
  ⟨h.1 999 (by simp) (by decide), h.2.2 999 rfl (by decide)⟩
